import Mathlib

/-!
Verification of the `llvm-ir-analysis` caching/orchestration layer (`src/lib.rs`).

The embedding models:
* `POut` — the outcome of a computation that may `panic!` (the source surfaces
  ambiguous-name and unknown-name conditions by panicking);
* `SimpleCache::get_or_insert_with` and `MappingCache::get_or_insert_with` as
  explicit state transformers (the interior mutability of `RefCell` becomes
  explicit state passing, the `HashMap` becomes an association list);
* the `Analysis` struct and each of its public queries.

The algorithm modules (`call_graph.rs`, `control_flow_graph.rs`,
`dominator_tree.rs`, `control_dep_graph.rs`, `functions_by_type.rs`) are pure
constructors whose result types the caching layer treats opaquely; they are
abstracted as the fields of an `Ops` record, so every theorem below holds for
every implementation of those constructors.
-/

namespace LLVMIRAnalysis

/-- Outcome of a computation that may abort with a panic message
(modelling Rust `panic!`, which terminates the process). -/
inductive POut (α : Type) where
  | ok : α → POut α
  | panic : String → POut α
deriving Repr, DecidableEq

/-- Modelled from the spec: an llvm-ir `Function` as supplied by the external
Program Store — a name plus a body (signature, basic blocks) that the caching
layer treats opaquely. -/
structure Func (B : Type) where
  name : String
  body : B
deriving Repr, DecidableEq

/-- Modelled from the spec: an llvm-ir `Module` — a named collection of
functions (function names are unique within a module). -/
structure Module (B : Type) where
  name : String
  funcs : List (Func B)
deriving Repr, DecidableEq

/-- Modelled from the spec: `Module::get_func_by_name` of the external llvm-ir
crate — resolve a function by name within a given module. -/
def Module.get_func_by_name {B : Type} (m : Module B) (func_name : String) :
    Option (Func B) :=
  m.funcs.find? (fun f => f.name == func_name)

/-- The pure analysis constructors from the crate's algorithm modules, which
`lib.rs` calls but treats opaquely. Abstracting them makes every theorem hold
for all implementations. -/
structure Ops (B CFG DT PDT CDG CG FBT : Type) where
  cfgNew : Func B → CFG
  domTreeNew : CFG → DT
  postDomTreeNew : CFG → PDT
  cdgNew : CFG → PDT → CDG
  fbtNew : List (Module B) → FBT
  callGraphNew : List (Module B) → FBT → CG

/-- Association-list lookup modelling `HashMap` lookup keyed by function name. -/
def mlookup {V : Type} : List (String × V) → String → Option V
  | [], _ => none
  | (k, v) :: rest, n => if k = n then some v else mlookup rest n

/-- The `Analysis` struct (`src/lib.rs` lines 25-40): the list of modules and
one cache cell or cache map per analysis kind. -/
structure Analysis (B CFG DT PDT CDG CG FBT : Type) where
  modules : List (Module B)
  call_graph : Option CG
  functions_by_type : Option FBT
  control_flow_graphs : List (String × CFG)
  dominator_trees : List (String × DT)
  postdominator_trees : List (String × PDT)
  control_dep_graphs : List (String × CDG)
deriving Repr, DecidableEq

/-- `Analysis::new` (`src/lib.rs` lines 47-57): a single module, all caches empty. -/
def Analysis.new {B CFG DT PDT CDG CG FBT : Type} (module : Module B) :
    Analysis B CFG DT PDT CDG CG FBT :=
  { modules := [module]
    call_graph := none
    functions_by_type := none
    control_flow_graphs := []
    dominator_trees := []
    postdominator_trees := []
    control_dep_graphs := [] }

/-- `Analysis::new_multi_module` (`src/lib.rs` lines 63-73): the collected
modules, all caches empty. -/
def Analysis.new_multi_module {B CFG DT PDT CDG CG FBT : Type}
    (modules : List (Module B)) : Analysis B CFG DT PDT CDG CG FBT :=
  { modules := modules
    call_graph := none
    functions_by_type := none
    control_flow_graphs := []
    dominator_trees := []
    postdominator_trees := []
    control_dep_graphs := [] }

/-- The loop body of `Analysis::get_func_by_name` (`src/lib.rs` lines 151-162):
scan the modules in order, remembering the first hit in `retval`; a second hit
panics with the ambiguous-name message. -/
def getFuncLoop {B : Type} (func_name : String) :
    List (Module B) → Option (Func B × Module B) →
    POut (Option (Func B × Module B))
  | [], retval => POut.ok retval
  | m :: rest, retval =>
    match m.get_func_by_name func_name with
    | some func =>
      match retval with
      | none => getFuncLoop func_name rest (some (func, m))
      | some (_, retmod) =>
        POut.panic ("Multiple functions found with name " ++ func_name ++
          ": one in module " ++ retmod.name ++ ", another in module " ++ m.name)
    | none => getFuncLoop func_name rest retval

/-- `Analysis::get_func_by_name` (`src/lib.rs` lines 151-162). -/
def Analysis.get_func_by_name {B CFG DT PDT CDG CG FBT : Type}
    (a : Analysis B CFG DT PDT CDG CG FBT) (func_name : String) :
    POut (Option (Func B × Module B)) :=
  getFuncLoop func_name a.modules none

/-- `SimpleCache::get_or_insert_with` (`src/lib.rs` lines 179-193), over an
explicit cache cell located inside a state `σ` via `read`/`write`. The closure
is a state transformer because in the source it captures `&self` and may
populate other caches; when the closure panics the insertion does not happen. -/
def SimpleCache.get_or_insert_with {σ T : Type} (read : σ → Option T)
    (write : T → σ → σ) (f : σ → POut T × σ) (s : σ) : POut T × σ :=
  match read s with
  | some v => (POut.ok v, s)
  | none =>
    match f s with
    | (POut.ok v, s1) => (POut.ok v, write v s1)
    | (POut.panic msg, s1) => (POut.panic msg, s1)

/-- `MappingCache::get_or_insert_with` (`src/lib.rs` lines 211-226), over an
explicit cache map located inside a state `σ` via `read`/`write`; when the
closure panics the insertion does not happen. -/
def MappingCache.get_or_insert_with {σ V : Type} (read : σ → List (String × V))
    (write : List (String × V) → σ → σ) (key : String)
    (f : σ → POut V × σ) (s : σ) : POut V × σ :=
  match mlookup (read s) key with
  | some v => (POut.ok v, s)
  | none =>
    match f s with
    | (POut.ok v, s1) => (POut.ok v, write ((key, v) :: read s1) s1)
    | (POut.panic msg, s1) => (POut.panic msg, s1)

/-- `Analysis::functions_by_type` (`src/lib.rs` lines 90-95). -/
def Analysis.functionsByType {B CFG DT PDT CDG CG FBT : Type}
    (ops : Ops B CFG DT PDT CDG CG FBT) (a : Analysis B CFG DT PDT CDG CG FBT) :
    POut FBT × Analysis B CFG DT PDT CDG CG FBT :=
  SimpleCache.get_or_insert_with (fun s => s.functions_by_type)
    (fun v s => { s with functions_by_type := some v })
    (fun s => (POut.ok (ops.fbtNew s.modules), s)) a

/-- `Analysis::call_graph` (`src/lib.rs` lines 81-87): the closure first
resolves `functions_by_type`, then builds the call graph. -/
def Analysis.callGraph {B CFG DT PDT CDG CG FBT : Type}
    (ops : Ops B CFG DT PDT CDG CG FBT) (a : Analysis B CFG DT PDT CDG CG FBT) :
    POut CG × Analysis B CFG DT PDT CDG CG FBT :=
  SimpleCache.get_or_insert_with (fun s => s.call_graph)
    (fun v s => { s with call_graph := some v })
    (fun s =>
      match Analysis.functionsByType ops s with
      | (POut.ok fbt, s1) => (POut.ok (ops.callGraphNew s1.modules fbt), s1)
      | (POut.panic msg, s1) => (POut.panic msg, s1)) a

/-- `Analysis::control_flow_graph` (`src/lib.rs` lines 101-108): the closure
resolves the function by name, panicking if it is not found, then builds the
CFG. -/
def Analysis.controlFlowGraph {B CFG DT PDT CDG CG FBT : Type}
    (ops : Ops B CFG DT PDT CDG CG FBT) (a : Analysis B CFG DT PDT CDG CG FBT)
    (func_name : String) : POut CFG × Analysis B CFG DT PDT CDG CG FBT :=
  MappingCache.get_or_insert_with (fun s => s.control_flow_graphs)
    (fun m s => { s with control_flow_graphs := m }) func_name
    (fun s =>
      match Analysis.get_func_by_name s func_name with
      | POut.ok (some (func, _)) => (POut.ok (ops.cfgNew func), s)
      | POut.ok none =>
        (POut.panic ("Function named " ++ func_name ++
          " not found in the Module(s)"), s)
      | POut.panic msg => (POut.panic msg, s)) a

/-- `Analysis::dominator_tree` (`src/lib.rs` lines 114-120): the closure first
resolves the CFG (possibly computing and caching it), then builds the tree. -/
def Analysis.dominatorTree {B CFG DT PDT CDG CG FBT : Type}
    (ops : Ops B CFG DT PDT CDG CG FBT) (a : Analysis B CFG DT PDT CDG CG FBT)
    (func_name : String) : POut DT × Analysis B CFG DT PDT CDG CG FBT :=
  MappingCache.get_or_insert_with (fun s => s.dominator_trees)
    (fun m s => { s with dominator_trees := m }) func_name
    (fun s =>
      match Analysis.controlFlowGraph ops s func_name with
      | (POut.ok cfg, s1) => (POut.ok (ops.domTreeNew cfg), s1)
      | (POut.panic msg, s1) => (POut.panic msg, s1)) a

/-- `Analysis::postdominator_tree` (`src/lib.rs` lines 126-132). -/
def Analysis.postdominatorTree {B CFG DT PDT CDG CG FBT : Type}
    (ops : Ops B CFG DT PDT CDG CG FBT) (a : Analysis B CFG DT PDT CDG CG FBT)
    (func_name : String) : POut PDT × Analysis B CFG DT PDT CDG CG FBT :=
  MappingCache.get_or_insert_with (fun s => s.postdominator_trees)
    (fun m s => { s with postdominator_trees := m }) func_name
    (fun s =>
      match Analysis.controlFlowGraph ops s func_name with
      | (POut.ok cfg, s1) => (POut.ok (ops.postDomTreeNew cfg), s1)
      | (POut.panic msg, s1) => (POut.panic msg, s1)) a

/-- `Analysis::control_dependence_graph` (`src/lib.rs` lines 138-145): the
closure resolves the CFG, then the post-dominator tree, then builds the graph. -/
def Analysis.controlDependenceGraph {B CFG DT PDT CDG CG FBT : Type}
    (ops : Ops B CFG DT PDT CDG CG FBT) (a : Analysis B CFG DT PDT CDG CG FBT)
    (func_name : String) : POut CDG × Analysis B CFG DT PDT CDG CG FBT :=
  MappingCache.get_or_insert_with (fun s => s.control_dep_graphs)
    (fun m s => { s with control_dep_graphs := m }) func_name
    (fun s =>
      match Analysis.controlFlowGraph ops s func_name with
      | (POut.ok cfg, s1) =>
        match Analysis.postdominatorTree ops s1 func_name with
        | (POut.ok pdt, s2) => (POut.ok (ops.cdgNew cfg pdt), s2)
        | (POut.panic msg, s2) => (POut.panic msg, s2)
      | (POut.panic msg, s1) => (POut.panic msg, s1)) a

/-! ### Basic lemmas about the association-list lookup -/

theorem mlookup_cons {V : Type} (k n : String) (v : V) (t : List (String × V)) :
    mlookup ((k, v) :: t) n = if k = n then some v else mlookup t n := rfl

theorem mlookup_cons_self {V : Type} (k : String) (v : V) (t : List (String × V)) :
    mlookup ((k, v) :: t) k = some v := by simp [mlookup]

theorem mlookup_cons_ne {V : Type} {k n : String} (v : V) (t : List (String × V))
    (h : k ≠ n) : mlookup ((k, v) :: t) n = mlookup t n := by simp [mlookup, h]

theorem mlookup_insert_preserve {V : Type} {t : List (String × V)} {k g : String}
    {v w : V} (hg : mlookup t g = none) (hk : mlookup t k = some v) :
    mlookup ((g, w) :: t) k = some v := by
  have hne : g ≠ k := by rintro rfl; rw [hg] at hk; exact Option.noConfusion hk
  rw [mlookup_cons_ne _ _ hne]; exact hk

section Queries

variable {B CFG DT PDT CDG CG FBT : Type} (ops : Ops B CFG DT PDT CDG CG FBT)
variable (a : Analysis B CFG DT PDT CDG CG FBT)

/-! ### Branch equations for each query -/

theorem fbt_eq_some {w : FBT} (h : a.functions_by_type = some w) :
    Analysis.functionsByType ops a = (POut.ok w, a) := by
  unfold Analysis.functionsByType SimpleCache.get_or_insert_with
  simp only [h]
  try rfl

theorem fbt_eq_none (h : a.functions_by_type = none) :
    Analysis.functionsByType ops a =
      (POut.ok (ops.fbtNew a.modules),
        { a with functions_by_type := some (ops.fbtNew a.modules) }) := by
  unfold Analysis.functionsByType SimpleCache.get_or_insert_with
  simp only [h]
  try rfl

theorem cg_eq_some {w : CG} (h : a.call_graph = some w) :
    Analysis.callGraph ops a = (POut.ok w, a) := by
  unfold Analysis.callGraph SimpleCache.get_or_insert_with
  simp only [h]
  try rfl

theorem cg_eq_none {w : FBT} {s1 : Analysis B CFG DT PDT CDG CG FBT}
    (h : a.call_graph = none)
    (hf : Analysis.functionsByType ops a = (POut.ok w, s1)) :
    Analysis.callGraph ops a =
      (POut.ok (ops.callGraphNew s1.modules w),
        { s1 with call_graph := some (ops.callGraphNew s1.modules w) }) := by
  unfold Analysis.callGraph SimpleCache.get_or_insert_with
  simp only [h, hf]

theorem cfg_eq_some {f : String} {v : CFG}
    (h : mlookup a.control_flow_graphs f = some v) :
    Analysis.controlFlowGraph ops a f = (POut.ok v, a) := by
  unfold Analysis.controlFlowGraph MappingCache.get_or_insert_with
  simp only [h]
  try rfl

theorem cfg_eq_found {f : String} {func : Func B} {m : Module B}
    (h : mlookup a.control_flow_graphs f = none)
    (hg : a.get_func_by_name f = POut.ok (some (func, m))) :
    Analysis.controlFlowGraph ops a f =
      (POut.ok (ops.cfgNew func),
        { a with control_flow_graphs :=
            (f, ops.cfgNew func) :: a.control_flow_graphs }) := by
  unfold Analysis.controlFlowGraph MappingCache.get_or_insert_with
  simp only [h, hg]

theorem cfg_eq_notfound {f : String}
    (h : mlookup a.control_flow_graphs f = none)
    (hg : a.get_func_by_name f = POut.ok none) :
    Analysis.controlFlowGraph ops a f =
      (POut.panic ("Function named " ++ f ++ " not found in the Module(s)"), a) := by
  unfold Analysis.controlFlowGraph MappingCache.get_or_insert_with
  simp only [h, hg]

theorem cfg_eq_ambiguous {f : String} {msg : String}
    (h : mlookup a.control_flow_graphs f = none)
    (hg : a.get_func_by_name f = POut.panic msg) :
    Analysis.controlFlowGraph ops a f = (POut.panic msg, a) := by
  unfold Analysis.controlFlowGraph MappingCache.get_or_insert_with
  simp only [h, hg]

theorem dt_eq_some {f : String} {v : DT}
    (h : mlookup a.dominator_trees f = some v) :
    Analysis.dominatorTree ops a f = (POut.ok v, a) := by
  unfold Analysis.dominatorTree MappingCache.get_or_insert_with
  simp only [h]
  try rfl

theorem dt_eq_ok {f : String} {c : CFG} {s1 : Analysis B CFG DT PDT CDG CG FBT}
    (h : mlookup a.dominator_trees f = none)
    (hc : Analysis.controlFlowGraph ops a f = (POut.ok c, s1)) :
    Analysis.dominatorTree ops a f =
      (POut.ok (ops.domTreeNew c),
        { s1 with dominator_trees := (f, ops.domTreeNew c) :: s1.dominator_trees }) := by
  unfold Analysis.dominatorTree MappingCache.get_or_insert_with
  simp only [h, hc]

theorem dt_eq_panic {f : String} {msg : String}
    {s1 : Analysis B CFG DT PDT CDG CG FBT}
    (h : mlookup a.dominator_trees f = none)
    (hc : Analysis.controlFlowGraph ops a f = (POut.panic msg, s1)) :
    Analysis.dominatorTree ops a f = (POut.panic msg, s1) := by
  unfold Analysis.dominatorTree MappingCache.get_or_insert_with
  simp only [h, hc]

theorem pdt_eq_some {f : String} {v : PDT}
    (h : mlookup a.postdominator_trees f = some v) :
    Analysis.postdominatorTree ops a f = (POut.ok v, a) := by
  unfold Analysis.postdominatorTree MappingCache.get_or_insert_with
  simp only [h]
  try rfl

theorem pdt_eq_ok {f : String} {c : CFG} {s1 : Analysis B CFG DT PDT CDG CG FBT}
    (h : mlookup a.postdominator_trees f = none)
    (hc : Analysis.controlFlowGraph ops a f = (POut.ok c, s1)) :
    Analysis.postdominatorTree ops a f =
      (POut.ok (ops.postDomTreeNew c),
        { s1 with postdominator_trees :=
            (f, ops.postDomTreeNew c) :: s1.postdominator_trees }) := by
  unfold Analysis.postdominatorTree MappingCache.get_or_insert_with
  simp only [h, hc]

theorem pdt_eq_panic {f : String} {msg : String}
    {s1 : Analysis B CFG DT PDT CDG CG FBT}
    (h : mlookup a.postdominator_trees f = none)
    (hc : Analysis.controlFlowGraph ops a f = (POut.panic msg, s1)) :
    Analysis.postdominatorTree ops a f = (POut.panic msg, s1) := by
  unfold Analysis.postdominatorTree MappingCache.get_or_insert_with
  simp only [h, hc]

theorem cdg_eq_some {f : String} {v : CDG}
    (h : mlookup a.control_dep_graphs f = some v) :
    Analysis.controlDependenceGraph ops a f = (POut.ok v, a) := by
  unfold Analysis.controlDependenceGraph MappingCache.get_or_insert_with
  simp only [h]
  try rfl

theorem cdg_eq_ok {f : String} {c : CFG} {p : PDT}
    {s1 s2 : Analysis B CFG DT PDT CDG CG FBT}
    (h : mlookup a.control_dep_graphs f = none)
    (hc : Analysis.controlFlowGraph ops a f = (POut.ok c, s1))
    (hp : Analysis.postdominatorTree ops s1 f = (POut.ok p, s2)) :
    Analysis.controlDependenceGraph ops a f =
      (POut.ok (ops.cdgNew c p),
        { s2 with control_dep_graphs :=
            (f, ops.cdgNew c p) :: s2.control_dep_graphs }) := by
  unfold Analysis.controlDependenceGraph MappingCache.get_or_insert_with
  simp only [h, hc, hp]

theorem cdg_eq_panic_cfg {f : String} {msg : String}
    {s1 : Analysis B CFG DT PDT CDG CG FBT}
    (h : mlookup a.control_dep_graphs f = none)
    (hc : Analysis.controlFlowGraph ops a f = (POut.panic msg, s1)) :
    Analysis.controlDependenceGraph ops a f = (POut.panic msg, s1) := by
  unfold Analysis.controlDependenceGraph MappingCache.get_or_insert_with
  simp only [h, hc]

theorem cdg_eq_panic_pdt {f : String} {c : CFG} {msg : String}
    {s1 s2 : Analysis B CFG DT PDT CDG CG FBT}
    (h : mlookup a.control_dep_graphs f = none)
    (hc : Analysis.controlFlowGraph ops a f = (POut.ok c, s1))
    (hp : Analysis.postdominatorTree ops s1 f = (POut.panic msg, s2)) :
    Analysis.controlDependenceGraph ops a f = (POut.panic msg, s2) := by
  unfold Analysis.controlDependenceGraph MappingCache.get_or_insert_with
  simp only [h, hc, hp]

/-! ### State characterization: panic leaves the state unchanged -/

theorem cfg_panic_state {f msg : String} {s : Analysis B CFG DT PDT CDG CG FBT}
    (h : Analysis.controlFlowGraph ops a f = (POut.panic msg, s)) : s = a := by
  cases hl : mlookup a.control_flow_graphs f with
  | some v => rw [cfg_eq_some ops a hl] at h; exact absurd h (by simp)
  | none =>
    cases hg : a.get_func_by_name f with
    | ok o =>
      cases o with
      | none =>
        rw [cfg_eq_notfound ops a hl hg] at h
        exact (Prod.mk.injEq _ _ _ _ ▸ h).2.symm ▸ rfl
      | some p =>
        obtain ⟨func, m⟩ := p
        rw [cfg_eq_found ops a hl hg] at h
        exact absurd h (by simp)
    | panic m =>
      rw [cfg_eq_ambiguous ops a hl hg] at h
      exact ((Prod.mk.injEq _ _ _ _ ▸ h).2).symm

theorem cfg_ok_state {f : String} {v : CFG} {s : Analysis B CFG DT PDT CDG CG FBT}
    (h : Analysis.controlFlowGraph ops a f = (POut.ok v, s)) :
    (mlookup a.control_flow_graphs f = some v ∧ s = a) ∨
      (mlookup a.control_flow_graphs f = none ∧
        s = { a with control_flow_graphs := (f, v) :: a.control_flow_graphs }) := by
  cases hl : mlookup a.control_flow_graphs f with
  | some w =>
    rw [cfg_eq_some ops a hl] at h
    injection h with h1 h2
    injection h1 with h3
    subst h3
    exact Or.inl ⟨rfl, h2.symm⟩
  | none =>
    cases hg : a.get_func_by_name f with
    | ok o =>
      cases o with
      | none =>
        rw [cfg_eq_notfound ops a hl hg] at h
        exact absurd h (by simp)
      | some p =>
        obtain ⟨func, m⟩ := p
        rw [cfg_eq_found ops a hl hg] at h
        injection h with h1 h2
        injection h1 with h3
        subst h3
        exact Or.inr ⟨rfl, h2.symm⟩
    | panic m =>
      rw [cfg_eq_ambiguous ops a hl hg] at h
      exact absurd h (by simp)

theorem cfg_ok_lookup {f : String} {v : CFG} {s : Analysis B CFG DT PDT CDG CG FBT}
    (h : Analysis.controlFlowGraph ops a f = (POut.ok v, s)) :
    mlookup s.control_flow_graphs f = some v := by
  rcases cfg_ok_state ops a h with ⟨hl, rfl⟩ | ⟨hl, rfl⟩
  · exact hl
  · exact mlookup_cons_self f v a.control_flow_graphs

theorem dt_panic_state {f msg : String} {s : Analysis B CFG DT PDT CDG CG FBT}
    (h : Analysis.dominatorTree ops a f = (POut.panic msg, s)) : s = a := by
  cases hl : mlookup a.dominator_trees f with
  | some v => rw [dt_eq_some ops a hl] at h; exact absurd h (by simp)
  | none =>
    rcases hc : Analysis.controlFlowGraph ops a f with ⟨r, s1⟩
    cases r with
    | ok c => rw [dt_eq_ok ops a hl hc] at h; exact absurd h (by simp)
    | panic m =>
      rw [dt_eq_panic ops a hl hc] at h
      injection h with h1 h2
      rw [← h2]
      exact cfg_panic_state ops a hc

theorem dt_ok_state {f : String} {v : DT} {s : Analysis B CFG DT PDT CDG CG FBT}
    (h : Analysis.dominatorTree ops a f = (POut.ok v, s)) :
    (mlookup a.dominator_trees f = some v ∧ s = a) ∨
      (mlookup a.dominator_trees f = none ∧ ∃ c s1,
        Analysis.controlFlowGraph ops a f = (POut.ok c, s1) ∧
        v = ops.domTreeNew c ∧
        s = { s1 with dominator_trees := (f, v) :: s1.dominator_trees }) := by
  cases hl : mlookup a.dominator_trees f with
  | some w =>
    rw [dt_eq_some ops a hl] at h
    injection h with h1 h2
    injection h1 with h3
    subst h3
    exact Or.inl ⟨rfl, h2.symm⟩
  | none =>
    rcases hc : Analysis.controlFlowGraph ops a f with ⟨r, s1⟩
    cases r with
    | ok c =>
      rw [dt_eq_ok ops a hl hc] at h
      injection h with h1 h2
      injection h1 with h3
      subst h3
      exact Or.inr ⟨rfl, c, s1, rfl, rfl, h2.symm⟩
    | panic m => rw [dt_eq_panic ops a hl hc] at h; exact absurd h (by simp)

theorem pdt_panic_state {f msg : String} {s : Analysis B CFG DT PDT CDG CG FBT}
    (h : Analysis.postdominatorTree ops a f = (POut.panic msg, s)) : s = a := by
  cases hl : mlookup a.postdominator_trees f with
  | some v => rw [pdt_eq_some ops a hl] at h; exact absurd h (by simp)
  | none =>
    rcases hc : Analysis.controlFlowGraph ops a f with ⟨r, s1⟩
    cases r with
    | ok c => rw [pdt_eq_ok ops a hl hc] at h; exact absurd h (by simp)
    | panic m =>
      rw [pdt_eq_panic ops a hl hc] at h
      injection h with h1 h2
      rw [← h2]
      exact cfg_panic_state ops a hc

theorem pdt_ok_state {f : String} {v : PDT} {s : Analysis B CFG DT PDT CDG CG FBT}
    (h : Analysis.postdominatorTree ops a f = (POut.ok v, s)) :
    (mlookup a.postdominator_trees f = some v ∧ s = a) ∨
      (mlookup a.postdominator_trees f = none ∧ ∃ c s1,
        Analysis.controlFlowGraph ops a f = (POut.ok c, s1) ∧
        v = ops.postDomTreeNew c ∧
        s = { s1 with postdominator_trees := (f, v) :: s1.postdominator_trees }) := by
  cases hl : mlookup a.postdominator_trees f with
  | some w =>
    rw [pdt_eq_some ops a hl] at h
    injection h with h1 h2
    injection h1 with h3
    subst h3
    exact Or.inl ⟨rfl, h2.symm⟩
  | none =>
    rcases hc : Analysis.controlFlowGraph ops a f with ⟨r, s1⟩
    cases r with
    | ok c =>
      rw [pdt_eq_ok ops a hl hc] at h
      injection h with h1 h2
      injection h1 with h3
      subst h3
      exact Or.inr ⟨rfl, c, s1, rfl, rfl, h2.symm⟩
    | panic m => rw [pdt_eq_panic ops a hl hc] at h; exact absurd h (by simp)

/-- If the CFG for `f` is already cached, `postdominator_tree f` cannot panic:
its closure only resolves the cached CFG and applies the total constructor. -/
theorem pdt_not_panic_of_cfg_cached {f : String} {c : CFG}
    (hc : mlookup a.control_flow_graphs f = some c) {msg : String}
    {s : Analysis B CFG DT PDT CDG CG FBT} :
    Analysis.postdominatorTree ops a f ≠ (POut.panic msg, s) := by
  cases hl : mlookup a.postdominator_trees f with
  | some v => rw [pdt_eq_some ops a hl]; simp
  | none => rw [pdt_eq_ok ops a hl (cfg_eq_some ops a hc)]; simp

theorem cdg_panic_state {f msg : String} {s : Analysis B CFG DT PDT CDG CG FBT}
    (h : Analysis.controlDependenceGraph ops a f = (POut.panic msg, s)) : s = a := by
  cases hl : mlookup a.control_dep_graphs f with
  | some v => rw [cdg_eq_some ops a hl] at h; exact absurd h (by simp)
  | none =>
    rcases hc : Analysis.controlFlowGraph ops a f with ⟨r, s1⟩
    cases r with
    | ok c =>
      rcases hp : Analysis.postdominatorTree ops s1 f with ⟨r2, s2⟩
      cases r2 with
      | ok p => rw [cdg_eq_ok ops a hl hc hp] at h; exact absurd h (by simp)
      | panic m2 =>
        exact absurd hp (pdt_not_panic_of_cfg_cached ops s1 (cfg_ok_lookup ops a hc))
    | panic m =>
      rw [cdg_eq_panic_cfg ops a hl hc] at h
      injection h with h1 h2
      rw [← h2]
      exact cfg_panic_state ops a hc

theorem cdg_ok_state {f : String} {v : CDG} {s : Analysis B CFG DT PDT CDG CG FBT}
    (h : Analysis.controlDependenceGraph ops a f = (POut.ok v, s)) :
    (mlookup a.control_dep_graphs f = some v ∧ s = a) ∨
      (mlookup a.control_dep_graphs f = none ∧ ∃ c s1 p s2,
        Analysis.controlFlowGraph ops a f = (POut.ok c, s1) ∧
        Analysis.postdominatorTree ops s1 f = (POut.ok p, s2) ∧
        v = ops.cdgNew c p ∧
        s = { s2 with control_dep_graphs := (f, v) :: s2.control_dep_graphs }) := by
  cases hl : mlookup a.control_dep_graphs f with
  | some w =>
    rw [cdg_eq_some ops a hl] at h
    injection h with h1 h2
    injection h1 with h3
    subst h3
    exact Or.inl ⟨rfl, h2.symm⟩
  | none =>
    rcases hc : Analysis.controlFlowGraph ops a f with ⟨r, s1⟩
    cases r with
    | ok c =>
      rcases hp : Analysis.postdominatorTree ops s1 f with ⟨r2, s2⟩
      cases r2 with
      | ok p =>
        rw [cdg_eq_ok ops a hl hc hp] at h
        injection h with h1 h2
        injection h1 with h3
        subst h3
        exact Or.inr ⟨rfl, c, s1, p, s2, rfl, hp, rfl, h2.symm⟩
      | panic m2 =>
        exact absurd hp (pdt_not_panic_of_cfg_cached ops s1 (cfg_ok_lookup ops a hc))
    | panic m => rw [cdg_eq_panic_cfg ops a hl hc] at h; exact absurd h (by simp)

/-- `functions_by_type` always succeeds; it populates its own cell and touches
nothing else. -/
theorem fbt_ok_exists : ∃ w s1, Analysis.functionsByType ops a = (POut.ok w, s1) ∧
    s1.functions_by_type = some w ∧ s1.modules = a.modules ∧
    s1.call_graph = a.call_graph ∧ s1.control_flow_graphs = a.control_flow_graphs ∧
    s1.dominator_trees = a.dominator_trees ∧
    s1.postdominator_trees = a.postdominator_trees ∧
    s1.control_dep_graphs = a.control_dep_graphs ∧
    (∀ w0, a.functions_by_type = some w0 → w = w0 ∧ s1 = a) := by
  cases hl : a.functions_by_type with
  | some w =>
    refine ⟨w, a, fbt_eq_some ops a hl, hl, rfl, rfl, rfl, rfl, rfl, rfl, ?_⟩
    intro w0 h0
    injection h0 with h1
    exact ⟨h1, rfl⟩
  | none =>
    refine ⟨_, _, fbt_eq_none ops a hl, rfl, rfl, rfl, rfl, rfl, rfl, rfl, ?_⟩
    intro w0 h0
    exact Option.noConfusion h0

/-- `call_graph` always succeeds; it populates its own cell (and, when it
computes, the `functions_by_type` cell) and touches no mapping cache. -/
theorem cg_ok_exists : ∃ w s1, Analysis.callGraph ops a = (POut.ok w, s1) ∧
    s1.call_graph = some w ∧ s1.modules = a.modules ∧
    s1.control_flow_graphs = a.control_flow_graphs ∧
    s1.dominator_trees = a.dominator_trees ∧
    s1.postdominator_trees = a.postdominator_trees ∧
    s1.control_dep_graphs = a.control_dep_graphs ∧
    (a.call_graph = none → s1.functions_by_type.isSome = true) ∧
    (a.functions_by_type.isSome = true → s1.functions_by_type = a.functions_by_type) ∧
    (∀ w0, a.call_graph = some w0 → w = w0 ∧ s1 = a) := by
  cases hl : a.call_graph with
  | some w =>
    refine ⟨w, a, cg_eq_some ops a hl, hl, rfl, rfl, rfl, rfl, rfl, ?_, ?_, ?_⟩
    · intro h0
      exact Option.noConfusion h0
    · intro _; rfl
    · intro w0 h0
      injection h0 with h1
      exact ⟨h1, rfl⟩
  | none =>
    obtain ⟨wf, s1, hf, hfs, hm, hcg, hcfg, hdt, hpdt, hcdg, hcached⟩ :=
      fbt_ok_exists ops a
    refine ⟨_, _, cg_eq_none ops a hl hf, rfl, hm, hcfg, hdt, hpdt, hcdg, ?_, ?_, ?_⟩
    · intro _
      show (s1.functions_by_type).isSome = true
      rw [hfs]
      rfl
    · intro hsome
      show s1.functions_by_type = a.functions_by_type
      cases h0 : a.functions_by_type with
      | some w0 =>
        obtain ⟨hw, hs⟩ := hcached w0 h0
        rw [hfs, hw]
      | none => exact absurd hsome (by simp [h0])
    · intro w0 h0
      exact Option.noConfusion h0

end Queries

/-! ### Counting lemmas for the name-resolution loop -/

/-- Whether a module defines a function with the given name. -/
def definesFunc {B : Type} (func_name : String) (m : Module B) : Bool :=
  (m.get_func_by_name func_name).isSome

/-- Whether an outcome is a panic. -/
def POut.isPanic {α : Type} : POut α → Bool
  | POut.ok _ => false
  | POut.panic _ => true

theorem POut.exists_of_isPanic {α : Type} {r : POut α} (h : r.isPanic = true) :
    ∃ msg, r = POut.panic msg := by
  cases r with
  | ok v => exact absurd h (by simp [POut.isPanic])
  | panic msg => exact ⟨msg, rfl⟩

theorem getFuncLoop_of_count_zero {B : Type} {func_name : String}
    {l : List (Module B)} (h : l.countP (definesFunc func_name) = 0)
    (acc : Option (Func B × Module B)) :
    getFuncLoop func_name l acc = POut.ok acc := by
  induction l generalizing acc with
  | nil => rfl
  | cons m rest ih =>
    rw [List.countP_cons] at h
    by_cases hb : definesFunc func_name m = true
    · rw [if_pos hb] at h; omega
    · rw [if_neg hb] at h
      have h1 : rest.countP (definesFunc func_name) = 0 := by omega
      have hm : m.get_func_by_name func_name = none := by
        cases hm0 : m.get_func_by_name func_name with
        | none => rfl
        | some func => exact absurd (by simp [definesFunc, hm0]) hb
      simp only [getFuncLoop, hm]
      exact ih h1 acc

theorem getFuncLoop_panic_some_acc {B : Type} {func_name : String}
    {l : List (Module B)} (h : 1 ≤ l.countP (definesFunc func_name))
    (p : Func B × Module B) :
    (getFuncLoop func_name l (some p)).isPanic = true := by
  obtain ⟨f0, m0⟩ := p
  induction l with
  | nil => simp [List.countP_nil] at h
  | cons m rest ih =>
    cases hm : m.get_func_by_name func_name with
    | some func => simp [getFuncLoop, hm, POut.isPanic]
    | none =>
      rw [List.countP_cons] at h
      have hb : definesFunc func_name m = false := by simp [definesFunc, hm]
      rw [hb, if_neg Bool.false_ne_true] at h
      simp only [getFuncLoop, hm]
      exact ih (by omega)

theorem getFuncLoop_panic_two {B : Type} {func_name : String}
    {l : List (Module B)} (h : 2 ≤ l.countP (definesFunc func_name)) :
    (getFuncLoop func_name l none).isPanic = true := by
  induction l with
  | nil => simp [List.countP_nil] at h
  | cons m rest ih =>
    rw [List.countP_cons] at h
    cases hm : m.get_func_by_name func_name with
    | some func =>
      simp only [getFuncLoop, hm]
      apply getFuncLoop_panic_some_acc
      have hb : definesFunc func_name m = true := by simp [definesFunc, hm]
      rw [hb, if_pos rfl] at h
      omega
    | none =>
      have hb : definesFunc func_name m = false := by simp [definesFunc, hm]
      rw [hb, if_neg Bool.false_ne_true] at h
      simp only [getFuncLoop, hm]
      exact ih (by omega)

theorem getFuncLoop_append_skip {B : Type} {func_name : String}
    {l1 : List (Module B)} (l2 : List (Module B))
    (h : l1.countP (definesFunc func_name) = 0)
    (acc : Option (Func B × Module B)) :
    getFuncLoop func_name (l1 ++ l2) acc = getFuncLoop func_name l2 acc := by
  induction l1 generalizing acc with
  | nil => rfl
  | cons m rest ih =>
    rw [List.countP_cons] at h
    by_cases hb : definesFunc func_name m = true
    · rw [if_pos hb] at h; omega
    · rw [if_neg hb] at h
      have hm : m.get_func_by_name func_name = none := by
        cases hm0 : m.get_func_by_name func_name with
        | none => rfl
        | some func => exact absurd (by simp [definesFunc, hm0]) hb
      simp only [List.cons_append, getFuncLoop, hm]
      exact ih (by omega) acc

section NameResolution

variable {B CFG DT PDT CDG CG FBT : Type} (a : Analysis B CFG DT PDT CDG CG FBT)

theorem get_func_by_name_of_absent {func_name : String}
    (h : a.modules.countP (definesFunc func_name) = 0) :
    a.get_func_by_name func_name = POut.ok none :=
  getFuncLoop_of_count_zero h none

theorem get_func_by_name_of_ambiguous {func_name : String}
    (h : 2 ≤ a.modules.countP (definesFunc func_name)) :
    (a.get_func_by_name func_name).isPanic = true :=
  getFuncLoop_panic_two h

theorem get_func_by_name_of_unique {func_name : String} {func : Func B}
    {l1 l2 : List (Module B)} {m : Module B}
    (hsplit : a.modules = l1 ++ m :: l2)
    (h1 : l1.countP (definesFunc func_name) = 0)
    (h2 : l2.countP (definesFunc func_name) = 0)
    (hm : m.get_func_by_name func_name = some func) :
    a.get_func_by_name func_name = POut.ok (some (func, m)) := by
  unfold Analysis.get_func_by_name
  rw [hsplit, getFuncLoop_append_skip _ h1]
  simp only [getFuncLoop, hm]
  exact getFuncLoop_of_count_zero h2 _

end NameResolution

/-! ### Frame and preservation lemmas -/

section Frames

variable {B CFG DT PDT CDG CG FBT : Type} (ops : Ops B CFG DT PDT CDG CG FBT)
variable (a : Analysis B CFG DT PDT CDG CG FBT)

theorem cfg_post_state (f : String) :
    (Analysis.controlFlowGraph ops a f).2 = a ∨
      (mlookup a.control_flow_graphs f = none ∧ ∃ v,
        Analysis.controlFlowGraph ops a f =
          (POut.ok v, { a with control_flow_graphs :=
            (f, v) :: a.control_flow_graphs })) := by
  rcases hq : Analysis.controlFlowGraph ops a f with ⟨r, s⟩
  cases r with
  | ok v =>
    rcases cfg_ok_state ops a hq with ⟨_, rfl⟩ | ⟨hl, rfl⟩
    · exact Or.inl rfl
    · exact Or.inr ⟨hl, v, rfl⟩
  | panic msg => exact Or.inl (cfg_panic_state ops a hq)

theorem cfg_frame (f : String) :
    ((Analysis.controlFlowGraph ops a f).2).modules = a.modules ∧
    ((Analysis.controlFlowGraph ops a f).2).call_graph = a.call_graph ∧
    ((Analysis.controlFlowGraph ops a f).2).functions_by_type = a.functions_by_type ∧
    ((Analysis.controlFlowGraph ops a f).2).dominator_trees = a.dominator_trees ∧
    ((Analysis.controlFlowGraph ops a f).2).postdominator_trees =
      a.postdominator_trees ∧
    ((Analysis.controlFlowGraph ops a f).2).control_dep_graphs =
      a.control_dep_graphs ∧
    (∀ g, g ≠ f → mlookup ((Analysis.controlFlowGraph ops a f).2).control_flow_graphs g =
      mlookup a.control_flow_graphs g) ∧
    (∀ k v, mlookup a.control_flow_graphs k = some v →
      mlookup ((Analysis.controlFlowGraph ops a f).2).control_flow_graphs k = some v) := by
  rcases cfg_post_state ops a f with h | ⟨hl, v, h⟩
  · rw [h]
    exact ⟨rfl, rfl, rfl, rfl, rfl, rfl, fun g _ => rfl, fun k w hk => hk⟩
  · rw [h]
    refine ⟨rfl, rfl, rfl, rfl, rfl, rfl, ?_, ?_⟩
    · intro g hg
      exact mlookup_cons_ne _ _ (Ne.symm hg)
    · intro k w hk
      exact mlookup_insert_preserve hl hk

theorem dt_ok_lookup {f : String} {v : DT} {s : Analysis B CFG DT PDT CDG CG FBT}
    (h : Analysis.dominatorTree ops a f = (POut.ok v, s)) :
    mlookup s.dominator_trees f = some v := by
  rcases dt_ok_state ops a h with ⟨hl, rfl⟩ | ⟨hl, c, s1, hc, hv, rfl⟩
  · exact hl
  · exact mlookup_cons_self f v s1.dominator_trees

theorem pdt_ok_lookup {f : String} {v : PDT} {s : Analysis B CFG DT PDT CDG CG FBT}
    (h : Analysis.postdominatorTree ops a f = (POut.ok v, s)) :
    mlookup s.postdominator_trees f = some v := by
  rcases pdt_ok_state ops a h with ⟨hl, rfl⟩ | ⟨hl, c, s1, hc, hv, rfl⟩
  · exact hl
  · exact mlookup_cons_self f v s1.postdominator_trees

theorem cdg_ok_lookup {f : String} {v : CDG} {s : Analysis B CFG DT PDT CDG CG FBT}
    (h : Analysis.controlDependenceGraph ops a f = (POut.ok v, s)) :
    mlookup s.control_dep_graphs f = some v := by
  rcases cdg_ok_state ops a h with ⟨hl, rfl⟩ | ⟨hl, c, s1, p, s2, hc, hp, hv, rfl⟩
  · exact hl
  · exact mlookup_cons_self f v s2.control_dep_graphs

theorem dt_frame (f : String) :
    ((Analysis.dominatorTree ops a f).2).modules = a.modules ∧
    ((Analysis.dominatorTree ops a f).2).call_graph = a.call_graph ∧
    ((Analysis.dominatorTree ops a f).2).functions_by_type = a.functions_by_type ∧
    ((Analysis.dominatorTree ops a f).2).postdominator_trees =
      a.postdominator_trees ∧
    ((Analysis.dominatorTree ops a f).2).control_dep_graphs = a.control_dep_graphs ∧
    (∀ g, g ≠ f → mlookup ((Analysis.dominatorTree ops a f).2).dominator_trees g =
      mlookup a.dominator_trees g) ∧
    (∀ g, g ≠ f → mlookup ((Analysis.dominatorTree ops a f).2).control_flow_graphs g =
      mlookup a.control_flow_graphs g) ∧
    (∀ k v, mlookup a.dominator_trees k = some v →
      mlookup ((Analysis.dominatorTree ops a f).2).dominator_trees k = some v) ∧
    (∀ k v, mlookup a.control_flow_graphs k = some v →
      mlookup ((Analysis.dominatorTree ops a f).2).control_flow_graphs k = some v) := by
  rcases hq : Analysis.dominatorTree ops a f with ⟨r, s⟩
  cases r with
  | panic msg =>
    have hs := dt_panic_state ops a hq
    subst hs
    exact ⟨rfl, rfl, rfl, rfl, rfl, fun g _ => rfl, fun g _ => rfl,
      fun k v hk => hk, fun k v hk => hk⟩
  | ok v =>
    rcases dt_ok_state ops a hq with ⟨hl, rfl⟩ | ⟨hl, c, s1, hc, hv, rfl⟩
    · exact ⟨rfl, rfl, rfl, rfl, rfl, fun g _ => rfl, fun g _ => rfl,
        fun k w hk => hk, fun k w hk => hk⟩
    · obtain ⟨hm, hcg, hfbt, hdts, hpdts, hcdgs, hlook, hpres⟩ := cfg_frame ops a f
      simp only [hc] at hm hcg hfbt hdts hpdts hcdgs hlook hpres
      refine ⟨hm, hcg, hfbt, hpdts, hcdgs, ?_, hlook, ?_, hpres⟩
      · intro g hg
        show mlookup ((f, v) :: s1.dominator_trees) g = mlookup a.dominator_trees g
        rw [mlookup_cons_ne _ _ (Ne.symm hg), hdts]
      · intro k w hk
        show mlookup ((f, v) :: s1.dominator_trees) k = some w
        rw [hdts]
        exact mlookup_insert_preserve hl hk

theorem pdt_frame (f : String) :
    ((Analysis.postdominatorTree ops a f).2).modules = a.modules ∧
    ((Analysis.postdominatorTree ops a f).2).call_graph = a.call_graph ∧
    ((Analysis.postdominatorTree ops a f).2).functions_by_type =
      a.functions_by_type ∧
    ((Analysis.postdominatorTree ops a f).2).dominator_trees = a.dominator_trees ∧
    ((Analysis.postdominatorTree ops a f).2).control_dep_graphs =
      a.control_dep_graphs ∧
    (∀ g, g ≠ f → mlookup ((Analysis.postdominatorTree ops a f).2).postdominator_trees g =
      mlookup a.postdominator_trees g) ∧
    (∀ g, g ≠ f → mlookup ((Analysis.postdominatorTree ops a f).2).control_flow_graphs g =
      mlookup a.control_flow_graphs g) ∧
    (∀ k v, mlookup a.postdominator_trees k = some v →
      mlookup ((Analysis.postdominatorTree ops a f).2).postdominator_trees k = some v) ∧
    (∀ k v, mlookup a.control_flow_graphs k = some v →
      mlookup ((Analysis.postdominatorTree ops a f).2).control_flow_graphs k = some v) := by
  rcases hq : Analysis.postdominatorTree ops a f with ⟨r, s⟩
  cases r with
  | panic msg =>
    have hs := pdt_panic_state ops a hq
    subst hs
    exact ⟨rfl, rfl, rfl, rfl, rfl, fun g _ => rfl, fun g _ => rfl,
      fun k v hk => hk, fun k v hk => hk⟩
  | ok v =>
    rcases pdt_ok_state ops a hq with ⟨hl, rfl⟩ | ⟨hl, c, s1, hc, hv, rfl⟩
    · exact ⟨rfl, rfl, rfl, rfl, rfl, fun g _ => rfl, fun g _ => rfl,
        fun k w hk => hk, fun k w hk => hk⟩
    · obtain ⟨hm, hcg, hfbt, hdts, hpdts, hcdgs, hlook, hpres⟩ := cfg_frame ops a f
      simp only [hc] at hm hcg hfbt hdts hpdts hcdgs hlook hpres
      refine ⟨hm, hcg, hfbt, hdts, hcdgs, ?_, hlook, ?_, hpres⟩
      · intro g hg
        show mlookup ((f, v) :: s1.postdominator_trees) g =
          mlookup a.postdominator_trees g
        rw [mlookup_cons_ne _ _ (Ne.symm hg), hpdts]
      · intro k w hk
        show mlookup ((f, v) :: s1.postdominator_trees) k = some w
        rw [hpdts]
        exact mlookup_insert_preserve hl hk

theorem cdg_frame (f : String) :
    ((Analysis.controlDependenceGraph ops a f).2).modules = a.modules ∧
    ((Analysis.controlDependenceGraph ops a f).2).call_graph = a.call_graph ∧
    ((Analysis.controlDependenceGraph ops a f).2).functions_by_type =
      a.functions_by_type ∧
    ((Analysis.controlDependenceGraph ops a f).2).dominator_trees =
      a.dominator_trees ∧
    (∀ g, g ≠ f → mlookup ((Analysis.controlDependenceGraph ops a f).2).control_dep_graphs g =
      mlookup a.control_dep_graphs g) ∧
    (∀ g, g ≠ f → mlookup ((Analysis.controlDependenceGraph ops a f).2).postdominator_trees g =
      mlookup a.postdominator_trees g) ∧
    (∀ g, g ≠ f → mlookup ((Analysis.controlDependenceGraph ops a f).2).control_flow_graphs g =
      mlookup a.control_flow_graphs g) ∧
    (∀ k v, mlookup a.control_dep_graphs k = some v →
      mlookup ((Analysis.controlDependenceGraph ops a f).2).control_dep_graphs k = some v) ∧
    (∀ k v, mlookup a.postdominator_trees k = some v →
      mlookup ((Analysis.controlDependenceGraph ops a f).2).postdominator_trees k = some v) ∧
    (∀ k v, mlookup a.control_flow_graphs k = some v →
      mlookup ((Analysis.controlDependenceGraph ops a f).2).control_flow_graphs k = some v) := by
  rcases hq : Analysis.controlDependenceGraph ops a f with ⟨r, s⟩
  cases r with
  | panic msg =>
    have hs := cdg_panic_state ops a hq
    subst hs
    exact ⟨rfl, rfl, rfl, rfl, fun g _ => rfl, fun g _ => rfl, fun g _ => rfl,
      fun k v hk => hk, fun k v hk => hk, fun k v hk => hk⟩
  | ok v =>
    rcases cdg_ok_state ops a hq with ⟨hl, rfl⟩ | ⟨hl, c, s1, p, s2, hc, hp, hv, rfl⟩
    · exact ⟨rfl, rfl, rfl, rfl, fun g _ => rfl, fun g _ => rfl, fun g _ => rfl,
        fun k w hk => hk, fun k w hk => hk, fun k w hk => hk⟩
    · obtain ⟨hm1, hcg1, hfbt1, hdts1, hpdts1, hcdgs1, hlook1, hpres1⟩ :=
        cfg_frame ops a f
      simp only [hc] at hm1 hcg1 hfbt1 hdts1 hpdts1 hcdgs1 hlook1 hpres1
      obtain ⟨hm2, hcg2, hfbt2, hdts2, hcdgs2, hplook2, hclook2, hppres2, hcpres2⟩ :=
        pdt_frame ops s1 f
      simp only [hp] at hm2 hcg2 hfbt2 hdts2 hcdgs2 hplook2 hclook2 hppres2 hcpres2
      refine ⟨?_, ?_, ?_, ?_, ?_, ?_, ?_, ?_, ?_, ?_⟩
      · show s2.modules = a.modules
        rw [hm2, hm1]
      · show s2.call_graph = a.call_graph
        rw [hcg2, hcg1]
      · show s2.functions_by_type = a.functions_by_type
        rw [hfbt2, hfbt1]
      · show s2.dominator_trees = a.dominator_trees
        rw [hdts2, hdts1]
      · intro g hg
        show mlookup ((f, v) :: s2.control_dep_graphs) g =
          mlookup a.control_dep_graphs g
        rw [mlookup_cons_ne _ _ (Ne.symm hg), hcdgs2, hcdgs1]
      · intro g hg
        show mlookup s2.postdominator_trees g = mlookup a.postdominator_trees g
        rw [hplook2 g hg, hpdts1]
      · intro g hg
        show mlookup s2.control_flow_graphs g = mlookup a.control_flow_graphs g
        rw [hclook2 g hg, hlook1 g hg]
      · intro k w hk
        show mlookup ((f, v) :: s2.control_dep_graphs) k = some w
        rw [hcdgs2, hcdgs1]
        exact mlookup_insert_preserve hl hk
      · intro k w hk
        show mlookup s2.postdominator_trees k = some w
        exact hppres2 k w (by rw [hpdts1]; exact hk)
      · intro k w hk
        show mlookup s2.control_flow_graphs k = some w
        exact hcpres2 k w (hpres1 k w hk)

end Frames

/-! ### Concrete instantiations used to evaluate the theorems -/

/-- A concrete instantiation of the abstract analysis constructors. -/
def opsNat : Ops Nat Nat Nat Nat Nat Nat Nat :=
  { cfgNew := fun f => f.body + 1
    domTreeNew := fun c => c + 10
    postDomTreeNew := fun c => c + 20
    cdgNew := fun c p => c + p
    fbtNew := fun mods => mods.length
    callGraphNew := fun mods w => mods.length + w }

/-- A module defining a function named `f`. -/
def modA : Module Nat := { name := "modA", funcs := [{ name := "f", body := 1 }] }

/-- A module defining a function named `g`. -/
def modB : Module Nat := { name := "modB", funcs := [{ name := "g", body := 2 }] }

/-- A second module also defining a function named `g`. -/
def modB2 : Module Nat := { name := "modB2", funcs := [{ name := "g", body := 3 }] }

/-- A fresh single-module analysis over `modA`. -/
def oneA : Analysis Nat Nat Nat Nat Nat Nat Nat := Analysis.new modA

/-- A fresh analysis over two modules that both define `g`. -/
def twoG : Analysis Nat Nat Nat Nat Nat Nat Nat :=
  Analysis.new_multi_module [modB, modB2]

/-! ### The claims -/

/-- Claim C2: a function name that resolves to functions in more than one of
the supplied modules makes `get_func_by_name` and every per-function query
(`control_flow_graph`, `dominator_tree`, `postdominator_tree`,
`control_dependence_graph`) fail with the ambiguous-name panic; no candidate
from either module is silently returned (the cache slots for the name are
empty, as on any instance, since a computation for this name never succeeds). -/
theorem C2_ambiguous_name_fails {B CFG DT PDT CDG CG FBT : Type}
    (ops : Ops B CFG DT PDT CDG CG FBT) (a : Analysis B CFG DT PDT CDG CG FBT)
    (f : String) (hcount : 2 ≤ a.modules.countP (definesFunc f))
    (hcfg : mlookup a.control_flow_graphs f = none)
    (hdt : mlookup a.dominator_trees f = none)
    (hpdt : mlookup a.postdominator_trees f = none)
    (hcdg : mlookup a.control_dep_graphs f = none) :
    (a.get_func_by_name f).isPanic = true ∧
    (Analysis.controlFlowGraph ops a f).1.isPanic = true ∧
    (Analysis.dominatorTree ops a f).1.isPanic = true ∧
    (Analysis.postdominatorTree ops a f).1.isPanic = true ∧
    (Analysis.controlDependenceGraph ops a f).1.isPanic = true := by
  have hamb := get_func_by_name_of_ambiguous a hcount
  obtain ⟨msg, hmsg⟩ := POut.exists_of_isPanic hamb
  have hc := cfg_eq_ambiguous ops a hcfg hmsg
  refine ⟨hamb, ?_, ?_, ?_, ?_⟩
  · rw [hc]; rfl
  · rw [dt_eq_panic ops a hdt hc]; rfl
  · rw [pdt_eq_panic ops a hpdt hc]; rfl
  · rw [cdg_eq_panic_cfg ops a hcdg hc]; rfl

/-- Claim C2 witness: two modules both define `g`; on a fresh analysis over
them, name resolution and all four per-function queries panic. -/
theorem C2_ambiguous_name_fails_witness :
    (twoG.get_func_by_name "g").isPanic = true ∧
    (Analysis.controlFlowGraph opsNat twoG "g").1.isPanic = true ∧
    (Analysis.dominatorTree opsNat twoG "g").1.isPanic = true ∧
    (Analysis.postdominatorTree opsNat twoG "g").1.isPanic = true ∧
    (Analysis.controlDependenceGraph opsNat twoG "g").1.isPanic = true :=
  C2_ambiguous_name_fails opsNat twoG "g" (by decide) rfl rfl rfl rfl

/-- Claim C3: a function name that matches no function in any supplied module
makes the per-function queries `control_flow_graph`, `dominator_tree`,
`postdominator_tree` and `control_dependence_graph` fail with the
unknown-name panic; no empty or default result is returned. -/
theorem C3_unknown_name_fails {B CFG DT PDT CDG CG FBT : Type}
    (ops : Ops B CFG DT PDT CDG CG FBT) (a : Analysis B CFG DT PDT CDG CG FBT)
    (f : String) (hcount : a.modules.countP (definesFunc f) = 0)
    (hcfg : mlookup a.control_flow_graphs f = none)
    (hdt : mlookup a.dominator_trees f = none)
    (hpdt : mlookup a.postdominator_trees f = none)
    (hcdg : mlookup a.control_dep_graphs f = none) :
    (Analysis.controlFlowGraph ops a f).1.isPanic = true ∧
    (Analysis.dominatorTree ops a f).1.isPanic = true ∧
    (Analysis.postdominatorTree ops a f).1.isPanic = true ∧
    (Analysis.controlDependenceGraph ops a f).1.isPanic = true := by
  have habs := get_func_by_name_of_absent a hcount
  have hc := cfg_eq_notfound ops a hcfg habs
  refine ⟨?_, ?_, ?_, ?_⟩
  · rw [hc]; rfl
  · rw [dt_eq_panic ops a hdt hc]; rfl
  · rw [pdt_eq_panic ops a hpdt hc]; rfl
  · rw [cdg_eq_panic_cfg ops a hcdg hc]; rfl

/-- Claim C3 witness: the name `zzz` matches no function of `modA`; all four
per-function queries on a fresh analysis panic. -/
theorem C3_unknown_name_fails_witness :
    (Analysis.controlFlowGraph opsNat oneA "zzz").1.isPanic = true ∧
    (Analysis.dominatorTree opsNat oneA "zzz").1.isPanic = true ∧
    (Analysis.postdominatorTree opsNat oneA "zzz").1.isPanic = true ∧
    (Analysis.controlDependenceGraph opsNat oneA "zzz").1.isPanic = true :=
  C3_unknown_name_fails opsNat oneA "zzz" (by decide) rfl rfl rfl rfl

/-- Claim C9: `get_func_by_name` returns `ok none` — not an error — when no
module defines the name, and when exactly one module defines it, it returns
`ok (some (function, containing module))` no matter where in the module list
that module sits (the loop scans all modules). -/
theorem C9_get_func_by_name_lower_level {B CFG DT PDT CDG CG FBT : Type} :
    (∀ (a : Analysis B CFG DT PDT CDG CG FBT) (f : String),
      a.modules.countP (definesFunc f) = 0 → a.get_func_by_name f = POut.ok none) ∧
    (∀ (a : Analysis B CFG DT PDT CDG CG FBT) (f : String) (func : Func B)
      (l1 l2 : List (Module B)) (m : Module B),
      a.modules = l1 ++ m :: l2 →
      l1.countP (definesFunc f) = 0 →
      l2.countP (definesFunc f) = 0 →
      m.get_func_by_name f = some func →
      a.get_func_by_name f = POut.ok (some (func, m))) :=
  ⟨fun a f h => get_func_by_name_of_absent a h,
   fun a f func l1 l2 m hs h1 h2 hm => get_func_by_name_of_unique a hs h1 h2 hm⟩

/-- Claim C9 witness: on a concrete two-module analysis, an absent name gives
`ok none` and a unique name in the second module is found with its module. -/
theorem C9_get_func_by_name_lower_level_witness :
    ((Analysis.new_multi_module [modA, modB] :
        Analysis Nat Nat Nat Nat Nat Nat Nat).get_func_by_name "zzz" =
      POut.ok none) ∧
    ((Analysis.new_multi_module [modA, modB] :
        Analysis Nat Nat Nat Nat Nat Nat Nat).get_func_by_name "g" =
      POut.ok (some ({ name := "g", body := 2 }, modB))) :=
  ⟨(C9_get_func_by_name_lower_level.1) (Analysis.new_multi_module [modA, modB])
      "zzz" (by decide),
   (C9_get_func_by_name_lower_level.2) (Analysis.new_multi_module [modA, modB])
      "g" { name := "g", body := 2 } [modA] [] modB rfl (by decide) rfl rfl⟩

/-- Claim C10: `Analysis::new m` is observationally equivalent to
`Analysis::new_multi_module [m]`: the two constructions are equal states, so
every public query returns equal results on them. -/
theorem C10_new_equals_multi {B CFG DT PDT CDG CG FBT : Type} (m : Module B)
    (ops : Ops B CFG DT PDT CDG CG FBT) (f : String) :
    (Analysis.new m : Analysis B CFG DT PDT CDG CG FBT) =
      Analysis.new_multi_module [m] ∧
    Analysis.callGraph ops (Analysis.new m) =
      Analysis.callGraph ops (Analysis.new_multi_module [m]) ∧
    Analysis.functionsByType ops (Analysis.new m) =
      Analysis.functionsByType ops (Analysis.new_multi_module [m]) ∧
    Analysis.controlFlowGraph ops (Analysis.new m) f =
      Analysis.controlFlowGraph ops (Analysis.new_multi_module [m]) f ∧
    Analysis.dominatorTree ops (Analysis.new m) f =
      Analysis.dominatorTree ops (Analysis.new_multi_module [m]) f ∧
    Analysis.postdominatorTree ops (Analysis.new m) f =
      Analysis.postdominatorTree ops (Analysis.new_multi_module [m]) f ∧
    Analysis.controlDependenceGraph ops (Analysis.new m) f =
      Analysis.controlDependenceGraph ops (Analysis.new_multi_module [m]) f ∧
    (Analysis.new m : Analysis B CFG DT PDT CDG CG FBT).get_func_by_name f =
      (Analysis.new_multi_module [m] :
        Analysis B CFG DT PDT CDG CG FBT).get_func_by_name f :=
  ⟨rfl, rfl, rfl, rfl, rfl, rfl, rfl, rfl⟩

/-- Claim C5: every public query is idempotent: running a query a second time
from the state the first call produced returns exactly the first call's result
(same value, same state), so a repeated call changes nothing beyond what the
first call established. -/
theorem C5_queries_idempotent {B CFG DT PDT CDG CG FBT : Type}
    (ops : Ops B CFG DT PDT CDG CG FBT) (a : Analysis B CFG DT PDT CDG CG FBT)
    (f : String) :
    Analysis.functionsByType ops ((Analysis.functionsByType ops a).2) =
      Analysis.functionsByType ops a ∧
    Analysis.callGraph ops ((Analysis.callGraph ops a).2) =
      Analysis.callGraph ops a ∧
    Analysis.controlFlowGraph ops ((Analysis.controlFlowGraph ops a f).2) f =
      Analysis.controlFlowGraph ops a f ∧
    Analysis.dominatorTree ops ((Analysis.dominatorTree ops a f).2) f =
      Analysis.dominatorTree ops a f ∧
    Analysis.postdominatorTree ops ((Analysis.postdominatorTree ops a f).2) f =
      Analysis.postdominatorTree ops a f ∧
    Analysis.controlDependenceGraph ops
        ((Analysis.controlDependenceGraph ops a f).2) f =
      Analysis.controlDependenceGraph ops a f ∧
    ((Analysis.controlFlowGraph ops a f).2).get_func_by_name f =
      a.get_func_by_name f := by
  refine ⟨?_, ?_, ?_, ?_, ?_, ?_, ?_⟩
  · obtain ⟨w, s1, hq, hcell, -⟩ := fbt_ok_exists ops a
    rw [hq]
    exact fbt_eq_some ops s1 hcell
  · obtain ⟨w, s1, hq, hcell, -⟩ := cg_ok_exists ops a
    rw [hq]
    exact cg_eq_some ops s1 hcell
  · rcases hq : Analysis.controlFlowGraph ops a f with ⟨r, s⟩
    cases r with
    | ok v => exact cfg_eq_some ops s (cfg_ok_lookup ops a hq)
    | panic msg =>
      have hs := cfg_panic_state ops a hq
      subst hs
      exact hq
  · rcases hq : Analysis.dominatorTree ops a f with ⟨r, s⟩
    cases r with
    | ok v => exact dt_eq_some ops s (dt_ok_lookup ops a hq)
    | panic msg =>
      have hs := dt_panic_state ops a hq
      subst hs
      exact hq
  · rcases hq : Analysis.postdominatorTree ops a f with ⟨r, s⟩
    cases r with
    | ok v => exact pdt_eq_some ops s (pdt_ok_lookup ops a hq)
    | panic msg =>
      have hs := pdt_panic_state ops a hq
      subst hs
      exact hq
  · rcases hq : Analysis.controlDependenceGraph ops a f with ⟨r, s⟩
    cases r with
    | ok v => exact cdg_eq_some ops s (cdg_ok_lookup ops a hq)
    | panic msg =>
      have hs := cdg_panic_state ops a hq
      subst hs
      exact hq
  · show getFuncLoop f ((Analysis.controlFlowGraph ops a f).2).modules none =
      getFuncLoop f a.modules none
    rw [(cfg_frame ops a f).1]

/-- Claim C6: when the computation for a per-function query fails (a panic
from the name lookup inside the closure), nothing is stored for that
(kind, key): the panic is the query's result, the whole cache state is exactly
as before the call (so the slot stays empty), and the same query run again
re-attempts the computation from the same state instead of replaying a
remembered failure. -/
theorem C6_failures_not_cached {B CFG DT PDT CDG CG FBT : Type}
    (ops : Ops B CFG DT PDT CDG CG FBT) (a : Analysis B CFG DT PDT CDG CG FBT)
    (f : String) :
    (∀ msg s, Analysis.controlFlowGraph ops a f = (POut.panic msg, s) →
      s = a ∧ mlookup s.control_flow_graphs f = mlookup a.control_flow_graphs f ∧
      Analysis.controlFlowGraph ops s f = Analysis.controlFlowGraph ops a f) ∧
    (∀ msg s, Analysis.dominatorTree ops a f = (POut.panic msg, s) →
      s = a ∧ mlookup s.dominator_trees f = mlookup a.dominator_trees f ∧
      Analysis.dominatorTree ops s f = Analysis.dominatorTree ops a f) ∧
    (∀ msg s, Analysis.postdominatorTree ops a f = (POut.panic msg, s) →
      s = a ∧ mlookup s.postdominator_trees f = mlookup a.postdominator_trees f ∧
      Analysis.postdominatorTree ops s f = Analysis.postdominatorTree ops a f) ∧
    (∀ msg s, Analysis.controlDependenceGraph ops a f = (POut.panic msg, s) →
      s = a ∧ mlookup s.control_dep_graphs f = mlookup a.control_dep_graphs f ∧
      Analysis.controlDependenceGraph ops s f =
        Analysis.controlDependenceGraph ops a f) := by
  refine ⟨?_, ?_, ?_, ?_⟩
  · intro msg s h
    obtain rfl := cfg_panic_state ops a h
    exact ⟨rfl, rfl, rfl⟩
  · intro msg s h
    obtain rfl := dt_panic_state ops a h
    exact ⟨rfl, rfl, rfl⟩
  · intro msg s h
    obtain rfl := pdt_panic_state ops a h
    exact ⟨rfl, rfl, rfl⟩
  · intro msg s h
    obtain rfl := cdg_panic_state ops a h
    exact ⟨rfl, rfl, rfl⟩

/-- Claim C6 witness: a failing `control_flow_graph` query for an unknown name
on a fresh analysis propagates the panic and leaves the state unchanged. -/
theorem C6_failures_not_cached_witness :
    oneA = oneA ∧
    mlookup oneA.control_flow_graphs "zzz" = mlookup oneA.control_flow_graphs "zzz" ∧
    Analysis.controlFlowGraph opsNat oneA "zzz" =
      Analysis.controlFlowGraph opsNat oneA "zzz" :=
  (C6_failures_not_cached opsNat oneA "zzz").1
    "Function named zzz not found in the Module(s)"
    oneA (by decide)

/-- An analysis state over `modA` and `modB` with every cache populated for
the function name `f`, used to evaluate the cache theorems. -/
def aPop : Analysis Nat Nat Nat Nat Nat Nat Nat :=
  { modules := [modA, modB]
    call_graph := some 7
    functions_by_type := some 5
    control_flow_graphs := [("f", 2)]
    dominator_trees := [("f", 12)]
    postdominator_trees := [("f", 22)]
    control_dep_graphs := [("f", 34)] }

/-- Claim C1: each (kind, key) is computed at most once and cache cells are
write-once. A populated cell makes its query return exactly the stored value
with the state untouched — for every `ops`, so the computation closure is not
invoked — and every query that can write a given cell preserves an
already-populated value instead of overwriting it, so all callers after the
first see the same stored result. -/
theorem C1_compute_once_write_once {B CFG DT PDT CDG CG FBT : Type}
    (ops : Ops B CFG DT PDT CDG CG FBT) (a : Analysis B CFG DT PDT CDG CG FBT)
    (f g : String) :
    (∀ w, a.functions_by_type = some w →
      Analysis.functionsByType ops a = (POut.ok w, a)) ∧
    (∀ w, a.call_graph = some w → Analysis.callGraph ops a = (POut.ok w, a)) ∧
    (∀ v, mlookup a.control_flow_graphs f = some v →
      Analysis.controlFlowGraph ops a f = (POut.ok v, a)) ∧
    (∀ v, mlookup a.dominator_trees f = some v →
      Analysis.dominatorTree ops a f = (POut.ok v, a)) ∧
    (∀ v, mlookup a.postdominator_trees f = some v →
      Analysis.postdominatorTree ops a f = (POut.ok v, a)) ∧
    (∀ v, mlookup a.control_dep_graphs f = some v →
      Analysis.controlDependenceGraph ops a f = (POut.ok v, a)) ∧
    (∀ v, mlookup a.control_flow_graphs f = some v →
      mlookup ((Analysis.controlFlowGraph ops a g).2).control_flow_graphs f = some v ∧
      mlookup ((Analysis.dominatorTree ops a g).2).control_flow_graphs f = some v ∧
      mlookup ((Analysis.postdominatorTree ops a g).2).control_flow_graphs f = some v ∧
      mlookup ((Analysis.controlDependenceGraph ops a g).2).control_flow_graphs f = some v) ∧
    (∀ v, mlookup a.postdominator_trees f = some v →
      mlookup ((Analysis.postdominatorTree ops a g).2).postdominator_trees f = some v ∧
      mlookup ((Analysis.controlDependenceGraph ops a g).2).postdominator_trees f = some v) ∧
    (∀ v, mlookup a.dominator_trees f = some v →
      mlookup ((Analysis.dominatorTree ops a g).2).dominator_trees f = some v) ∧
    (∀ v, mlookup a.control_dep_graphs f = some v →
      mlookup ((Analysis.controlDependenceGraph ops a g).2).control_dep_graphs f = some v) ∧
    (∀ w, a.functions_by_type = some w →
      ((Analysis.functionsByType ops a).2).functions_by_type = some w ∧
      ((Analysis.callGraph ops a).2).functions_by_type = some w) ∧
    (∀ w, a.call_graph = some w →
      ((Analysis.callGraph ops a).2).call_graph = some w) := by
  obtain ⟨-, -, -, -, -, -, -, hcpres⟩ := cfg_frame ops a g
  obtain ⟨-, -, -, -, -, -, -, hdtpresD, hdtpresC⟩ := dt_frame ops a g
  obtain ⟨-, -, -, -, -, -, -, hpdtpresP, hpdtpresC⟩ := pdt_frame ops a g
  obtain ⟨-, -, -, -, -, -, -, hcdgpresG, hcdgpresP, hcdgpresC⟩ := cdg_frame ops a g
  refine ⟨fun w hw => fbt_eq_some ops a hw, fun w hw => cg_eq_some ops a hw,
    fun v hv => cfg_eq_some ops a hv, fun v hv => dt_eq_some ops a hv,
    fun v hv => pdt_eq_some ops a hv, fun v hv => cdg_eq_some ops a hv,
    fun v hv => ⟨hcpres f v hv, hdtpresC f v hv, hpdtpresC f v hv, hcdgpresC f v hv⟩,
    fun v hv => ⟨hpdtpresP f v hv, hcdgpresP f v hv⟩,
    fun v hv => hdtpresD f v hv,
    fun v hv => hcdgpresG f v hv,
    ?_,
    fun w hw => by rw [cg_eq_some ops a hw]; exact hw⟩
  intro w hw
  constructor
  · rw [fbt_eq_some ops a hw]
    exact hw
  · obtain ⟨wc, s1, hq, -, -, -, -, -, -, -, hkeep, -⟩ := cg_ok_exists ops a
    rw [hq]
    show s1.functions_by_type = some w
    rw [hkeep (by rw [hw]; rfl), hw]

/-- Claim C1 witness: with every cache of `aPop` populated for `f`, each query
returns the stored value with the state untouched, and queries for another
name `g` preserve the populated entries. -/
theorem C1_compute_once_write_once_witness :
    Analysis.functionsByType opsNat aPop = (POut.ok 5, aPop) ∧
    Analysis.callGraph opsNat aPop = (POut.ok 7, aPop) ∧
    Analysis.controlFlowGraph opsNat aPop "f" = (POut.ok 2, aPop) ∧
    Analysis.dominatorTree opsNat aPop "f" = (POut.ok 12, aPop) ∧
    Analysis.postdominatorTree opsNat aPop "f" = (POut.ok 22, aPop) ∧
    Analysis.controlDependenceGraph opsNat aPop "f" = (POut.ok 34, aPop) ∧
    mlookup ((Analysis.controlFlowGraph opsNat aPop "g").2).control_flow_graphs "f" = some 2 ∧
    mlookup ((Analysis.dominatorTree opsNat aPop "g").2).control_flow_graphs "f" = some 2 ∧
    mlookup ((Analysis.postdominatorTree opsNat aPop "g").2).control_flow_graphs "f" = some 2 ∧
    mlookup ((Analysis.controlDependenceGraph opsNat aPop "g").2).control_flow_graphs "f" = some 2 ∧
    mlookup ((Analysis.postdominatorTree opsNat aPop "g").2).postdominator_trees "f" = some 22 ∧
    mlookup ((Analysis.controlDependenceGraph opsNat aPop "g").2).postdominator_trees "f" = some 22 ∧
    mlookup ((Analysis.dominatorTree opsNat aPop "g").2).dominator_trees "f" = some 12 ∧
    mlookup ((Analysis.controlDependenceGraph opsNat aPop "g").2).control_dep_graphs "f" = some 34 ∧
    ((Analysis.functionsByType opsNat aPop).2).functions_by_type = some 5 ∧
    ((Analysis.callGraph opsNat aPop).2).functions_by_type = some 5 ∧
    ((Analysis.callGraph opsNat aPop).2).call_graph = some 7 := by
  obtain ⟨h1, h2, h3, h4, h5, h6, h7, h8, h9, h10, h11, h12⟩ :=
    C1_compute_once_write_once opsNat aPop "f" "g"
  exact ⟨h1 5 rfl, h2 7 rfl, h3 2 (by decide), h4 12 (by decide),
    h5 22 (by decide), h6 34 (by decide), (h7 2 (by decide)).1,
    (h7 2 (by decide)).2.1, (h7 2 (by decide)).2.2.1, (h7 2 (by decide)).2.2.2,
    (h8 22 (by decide)).1, (h8 22 (by decide)).2, h9 12 (by decide),
    h10 34 (by decide), (h11 5 rfl).1, (h11 5 rfl).2, h12 7 rfl⟩

/-- Claim C4: queries resolve their dependencies on demand and cache every
intermediate. On any state whose caches are dependency-closed (anything a real
instance reaches: a populated control-dependence slot implies populated CFG and
post-dominator slots for the same name, and a populated call-graph cell implies
a populated signature-index cell), a successful `control_dependence_graph f`
leaves the CFG and post-dominator tree of `f` cached, so direct queries for
them return the cached values without touching the state; likewise a
successful `call_graph` leaves `functions_by_type` cached. -/
theorem C4_dependencies_cached {B CFG DT PDT CDG CG FBT : Type}
    (ops : Ops B CFG DT PDT CDG CG FBT) (a : Analysis B CFG DT PDT CDG CG FBT)
    (f : String)
    (hinv1 : ∀ w, mlookup a.control_dep_graphs f = some w →
      (mlookup a.control_flow_graphs f).isSome = true ∧
      (mlookup a.postdominator_trees f).isSome = true)
    (hinv2 : a.call_graph.isSome = true → a.functions_by_type.isSome = true) :
    (∀ v s, Analysis.controlDependenceGraph ops a f = (POut.ok v, s) →
      ∃ c p, mlookup s.control_flow_graphs f = some c ∧
        mlookup s.postdominator_trees f = some p ∧
        Analysis.controlFlowGraph ops s f = (POut.ok c, s) ∧
        Analysis.postdominatorTree ops s f = (POut.ok p, s)) ∧
    (∀ w s, Analysis.callGraph ops a = (POut.ok w, s) →
      ∃ u, s.functions_by_type = some u ∧
        Analysis.functionsByType ops s = (POut.ok u, s)) := by
  constructor
  · intro v s h
    rcases cdg_ok_state ops a h with ⟨hl, rfl⟩ | ⟨hl, c, s1, p, s2, hc, hp, hv, rfl⟩
    · obtain ⟨hciss, hpiss⟩ := hinv1 v hl
      obtain ⟨c, hc⟩ := Option.isSome_iff_exists.mp hciss
      obtain ⟨p, hp⟩ := Option.isSome_iff_exists.mp hpiss
      exact ⟨c, p, hc, hp, cfg_eq_some ops _ hc, pdt_eq_some ops _ hp⟩
    · obtain ⟨-, -, -, -, -, -, -, -, hcpres2⟩ := pdt_frame ops s1 f
      simp only [hp] at hcpres2
      have hs2c : mlookup s2.control_flow_graphs f = some c :=
        hcpres2 f c (cfg_ok_lookup ops a hc)
      have hs2p : mlookup s2.postdominator_trees f = some p :=
        pdt_ok_lookup ops s1 hp
      refine ⟨c, p, hs2c, hs2p, ?_, ?_⟩
      · exact cfg_eq_some ops _ hs2c
      · exact pdt_eq_some ops _ hs2p
  · intro w s h
    cases hl : a.call_graph with
    | some w0 =>
      rw [cg_eq_some ops a hl] at h
      injection h with h1 h2
      injection h1 with h3
      subst h3
      subst h2
      obtain ⟨u, hu⟩ := Option.isSome_iff_exists.mp (hinv2 (by rw [hl]; rfl))
      exact ⟨u, hu, fbt_eq_some ops a hu⟩
    | none =>
      obtain ⟨wc, s1, hq, hcell, -, -, -, -, -, hfill, -, -⟩ := cg_ok_exists ops a
      rw [hq] at h
      injection h with h1 h2
      injection h1 with h3
      subst h3
      subst h2
      obtain ⟨u, hu⟩ := Option.isSome_iff_exists.mp (hfill hl)
      exact ⟨u, hu, fbt_eq_some ops s1 hu⟩

/-- The state a fresh analysis over `modA` reaches after
`control_dependence_graph "f"`. -/
def oneAafterCDG : Analysis Nat Nat Nat Nat Nat Nat Nat :=
  { modules := [modA]
    call_graph := none
    functions_by_type := none
    control_flow_graphs := [("f", 2)]
    dominator_trees := []
    postdominator_trees := [("f", 22)]
    control_dep_graphs := [("f", 24)] }

/-- The state a fresh analysis over `modA` reaches after `call_graph`. -/
def oneAafterCG : Analysis Nat Nat Nat Nat Nat Nat Nat :=
  { modules := [modA]
    call_graph := some 2
    functions_by_type := some 1
    control_flow_graphs := []
    dominator_trees := []
    postdominator_trees := []
    control_dep_graphs := [] }

/-- Claim C4 witness: on the fresh analysis `oneA`,
`control_dependence_graph "f"` caches the CFG and post-dominator tree of `f`,
and `call_graph` caches the signature index. -/
theorem C4_dependencies_cached_witness :
    (∃ c p, mlookup oneAafterCDG.control_flow_graphs "f" = some c ∧
      mlookup oneAafterCDG.postdominator_trees "f" = some p ∧
      Analysis.controlFlowGraph opsNat oneAafterCDG "f" = (POut.ok c, oneAafterCDG) ∧
      Analysis.postdominatorTree opsNat oneAafterCDG "f" = (POut.ok p, oneAafterCDG)) ∧
    (∃ u, oneAafterCG.functions_by_type = some u ∧
      Analysis.functionsByType opsNat oneAafterCG = (POut.ok u, oneAafterCG)) := by
  obtain ⟨h1, h2⟩ := C4_dependencies_cached opsNat oneA "f"
    (fun w hw => Option.noConfusion hw) (fun h => Bool.noConfusion h)
  exact ⟨h1 24 oneAafterCDG (by decide), h2 2 oneAafterCG (by decide)⟩

/-- Claim C7 counterexample: ambiguous and unknown names are NOT surfaced as
explicit error result values: the code has no error channel for these queries
(they return the analysis value directly) and instead calls `panic!`, which
terminates the process. Concretely, requesting the CFG of `g` when two modules
both define `g` produces the ambiguous-name panic outcome. -/
theorem C7_counterexample_panic_not_error_value :
    (Analysis.controlFlowGraph opsNat twoG "g").1 =
      POut.panic ("Multiple functions found with name g: " ++
        "one in module modB, another in module modB2") := by decide

/-- Claim C7 as amended: ambiguous-name and unknown-name conditions are fatal
to the calling query and never silently defaulted — every per-function query
for such a name panics (process termination) rather than returning any value;
they are not, however, surfaced as observable error result values. -/
theorem C7_fatal_never_defaulted {B CFG DT PDT CDG CG FBT : Type}
    (ops : Ops B CFG DT PDT CDG CG FBT) (a : Analysis B CFG DT PDT CDG CG FBT)
    (f : String)
    (hcfg : mlookup a.control_flow_graphs f = none)
    (hdt : mlookup a.dominator_trees f = none)
    (hpdt : mlookup a.postdominator_trees f = none)
    (hcdg : mlookup a.control_dep_graphs f = none)
    (hname : a.modules.countP (definesFunc f) = 0 ∨
      2 ≤ a.modules.countP (definesFunc f)) :
    (Analysis.controlFlowGraph ops a f).1.isPanic = true ∧
    (Analysis.dominatorTree ops a f).1.isPanic = true ∧
    (Analysis.postdominatorTree ops a f).1.isPanic = true ∧
    (Analysis.controlDependenceGraph ops a f).1.isPanic = true := by
  have hc : ∃ msg, Analysis.controlFlowGraph ops a f = (POut.panic msg, a) := by
    rcases hname with h0 | h2
    · exact ⟨_, cfg_eq_notfound ops a hcfg (get_func_by_name_of_absent a h0)⟩
    · obtain ⟨msg, hmsg⟩ :=
        POut.exists_of_isPanic (get_func_by_name_of_ambiguous a h2)
      exact ⟨msg, cfg_eq_ambiguous ops a hcfg hmsg⟩
  obtain ⟨msg, hc⟩ := hc
  refine ⟨?_, ?_, ?_, ?_⟩
  · rw [hc]; rfl
  · rw [dt_eq_panic ops a hdt hc]; rfl
  · rw [pdt_eq_panic ops a hpdt hc]; rfl
  · rw [cdg_eq_panic_cfg ops a hcdg hc]; rfl

/-- Claim C7 (amended) witness: on a fresh analysis over two modules both
defining `g`, all four per-function queries for `g` panic. -/
theorem C7_fatal_never_defaulted_witness :
    (Analysis.controlFlowGraph opsNat twoG "g").1.isPanic = true ∧
    (Analysis.dominatorTree opsNat twoG "g").1.isPanic = true ∧
    (Analysis.postdominatorTree opsNat twoG "g").1.isPanic = true ∧
    (Analysis.controlDependenceGraph opsNat twoG "g").1.isPanic = true :=
  C7_fatal_never_defaulted opsNat twoG "g" rfl rfl rfl rfl (Or.inr (by decide))

/-- Claim C8: every query is read-only outside its own cache. No query changes
the supplied modules; `functions_by_type` and `call_graph` touch no mapping
cache and nothing outside their dependency chain; every per-function query for
`f` leaves the cached entries of every other name `g` and of every analysis
kind outside `f`'s dependency chain unchanged. -/
theorem C8_read_only_outside_own_cache {B CFG DT PDT CDG CG FBT : Type}
    (ops : Ops B CFG DT PDT CDG CG FBT) (a : Analysis B CFG DT PDT CDG CG FBT)
    (f g : String) (hg : g ≠ f) :
    ((Analysis.functionsByType ops a).2).modules = a.modules ∧
    ((Analysis.callGraph ops a).2).modules = a.modules ∧
    ((Analysis.controlFlowGraph ops a f).2).modules = a.modules ∧
    ((Analysis.dominatorTree ops a f).2).modules = a.modules ∧
    ((Analysis.postdominatorTree ops a f).2).modules = a.modules ∧
    ((Analysis.controlDependenceGraph ops a f).2).modules = a.modules ∧
    ((Analysis.functionsByType ops a).2).call_graph = a.call_graph ∧
    ((Analysis.functionsByType ops a).2).control_flow_graphs = a.control_flow_graphs ∧
    ((Analysis.functionsByType ops a).2).dominator_trees = a.dominator_trees ∧
    ((Analysis.functionsByType ops a).2).postdominator_trees = a.postdominator_trees ∧
    ((Analysis.functionsByType ops a).2).control_dep_graphs = a.control_dep_graphs ∧
    ((Analysis.callGraph ops a).2).control_flow_graphs = a.control_flow_graphs ∧
    ((Analysis.callGraph ops a).2).dominator_trees = a.dominator_trees ∧
    ((Analysis.callGraph ops a).2).postdominator_trees = a.postdominator_trees ∧
    ((Analysis.callGraph ops a).2).control_dep_graphs = a.control_dep_graphs ∧
    ((Analysis.controlFlowGraph ops a f).2).call_graph = a.call_graph ∧
    ((Analysis.controlFlowGraph ops a f).2).functions_by_type = a.functions_by_type ∧
    ((Analysis.controlFlowGraph ops a f).2).dominator_trees = a.dominator_trees ∧
    ((Analysis.controlFlowGraph ops a f).2).postdominator_trees = a.postdominator_trees ∧
    ((Analysis.controlFlowGraph ops a f).2).control_dep_graphs = a.control_dep_graphs ∧
    mlookup ((Analysis.controlFlowGraph ops a f).2).control_flow_graphs g =
      mlookup a.control_flow_graphs g ∧
    ((Analysis.dominatorTree ops a f).2).call_graph = a.call_graph ∧
    ((Analysis.dominatorTree ops a f).2).functions_by_type = a.functions_by_type ∧
    ((Analysis.dominatorTree ops a f).2).postdominator_trees = a.postdominator_trees ∧
    ((Analysis.dominatorTree ops a f).2).control_dep_graphs = a.control_dep_graphs ∧
    mlookup ((Analysis.dominatorTree ops a f).2).dominator_trees g =
      mlookup a.dominator_trees g ∧
    mlookup ((Analysis.dominatorTree ops a f).2).control_flow_graphs g =
      mlookup a.control_flow_graphs g ∧
    ((Analysis.postdominatorTree ops a f).2).call_graph = a.call_graph ∧
    ((Analysis.postdominatorTree ops a f).2).functions_by_type = a.functions_by_type ∧
    ((Analysis.postdominatorTree ops a f).2).dominator_trees = a.dominator_trees ∧
    ((Analysis.postdominatorTree ops a f).2).control_dep_graphs = a.control_dep_graphs ∧
    mlookup ((Analysis.postdominatorTree ops a f).2).postdominator_trees g =
      mlookup a.postdominator_trees g ∧
    mlookup ((Analysis.postdominatorTree ops a f).2).control_flow_graphs g =
      mlookup a.control_flow_graphs g ∧
    ((Analysis.controlDependenceGraph ops a f).2).call_graph = a.call_graph ∧
    ((Analysis.controlDependenceGraph ops a f).2).functions_by_type = a.functions_by_type ∧
    ((Analysis.controlDependenceGraph ops a f).2).dominator_trees = a.dominator_trees ∧
    mlookup ((Analysis.controlDependenceGraph ops a f).2).control_dep_graphs g =
      mlookup a.control_dep_graphs g ∧
    mlookup ((Analysis.controlDependenceGraph ops a f).2).postdominator_trees g =
      mlookup a.postdominator_trees g ∧
    mlookup ((Analysis.controlDependenceGraph ops a f).2).control_flow_graphs g =
      mlookup a.control_flow_graphs g := by
  obtain ⟨wf, sf, hqf, -, hfm, hfcg, hfcfg, hfdt, hfpdt, hfcdg, -⟩ := fbt_ok_exists ops a
  obtain ⟨wc, sc, hqc, -, hcm, hccfg, hcdt, hcpdt, hccdg, -, -, -⟩ := cg_ok_exists ops a
  obtain ⟨h1m, h1cg, h1fbt, h1dts, h1pdts, h1cdgs, h1ne, -⟩ := cfg_frame ops a f
  obtain ⟨h2m, h2cg, h2fbt, h2pdts, h2cdgs, h2neD, h2neC, -, -⟩ := dt_frame ops a f
  obtain ⟨h3m, h3cg, h3fbt, h3dts, h3cdgs, h3neP, h3neC, -, -⟩ := pdt_frame ops a f
  obtain ⟨h4m, h4cg, h4fbt, h4dts, h4neG, h4neP, h4neC, -, -, -⟩ := cdg_frame ops a f
  exact ⟨by rw [hqf]; exact hfm, by rw [hqc]; exact hcm, h1m, h2m, h3m, h4m,
    by rw [hqf]; exact hfcg, by rw [hqf]; exact hfcfg, by rw [hqf]; exact hfdt,
    by rw [hqf]; exact hfpdt, by rw [hqf]; exact hfcdg,
    by rw [hqc]; exact hccfg, by rw [hqc]; exact hcdt,
    by rw [hqc]; exact hcpdt, by rw [hqc]; exact hccdg,
    h1cg, h1fbt, h1dts, h1pdts, h1cdgs, h1ne g hg,
    h2cg, h2fbt, h2pdts, h2cdgs, h2neD g hg, h2neC g hg,
    h3cg, h3fbt, h3dts, h3cdgs, h3neP g hg, h3neC g hg,
    h4cg, h4fbt, h4dts, h4neG g hg, h4neP g hg, h4neC g hg⟩

/-- Claim C8 witness: on the fresh analysis `oneA`, the queries for `f` leave
the modules and the entries of the unrelated name `g` unchanged. -/
theorem C8_read_only_outside_own_cache_witness :
    ((Analysis.functionsByType opsNat oneA).2).modules = oneA.modules ∧
    ((Analysis.callGraph opsNat oneA).2).modules = oneA.modules :=
  ⟨(C8_read_only_outside_own_cache opsNat oneA "f" "g" (by decide)).1,
   (C8_read_only_outside_own_cache opsNat oneA "f" "g" (by decide)).2.1⟩

end LLVMIRAnalysis
